import Mathlib

/-!
Verification of the canvas-proj interaction and state engine.

Shallow embedding over ℚ of:
- `src/src/canvas/CoordinateTransform.ts` (worldToScreen, screenToWorld,
  applyPan, applyZoom)
- `src/unnamed/part_000` (an earlier snapshot of applyZoom, embedded as
  `applyZoomV0`)
- `src/src/canvas/ResizeHandles.ts` (getHandlePositions, hitTestHandle,
  applyResize)
- the SceneGraph snapshot in `src/unnamed/part_001` (createInitialState,
  addShape, removeShape, updateShape, selectShape, setTransform,
  getShapeById)
- `src/src/utils/history.ts` (pushHistory, undo, redo, canUndo, canRedo)
- the event handlers of `src/src/App.tsx` as a step function over an
  explicit application state.

JavaScript numbers are modelled as rationals; the identities proved here
are the exact-arithmetic statements of the spec ("exactly over the
rationals/reals").
-/

namespace Canvas

/-- 2D point (`src/types.ts`, `Point`). -/
structure Point where
  x : ℚ
  y : ℚ
deriving DecidableEq, Repr

/-- Viewport transform (`src/types.ts`, `Transform`). -/
structure Transform where
  panX : ℚ
  panY : ℚ
  zoom : ℚ
deriving DecidableEq, Repr

/-- `worldToScreen` from `CoordinateTransform.ts` lines 19-24. -/
def worldToScreen (worldPos : Point) (transform : Transform) : Point :=
  { x := worldPos.x * transform.zoom + transform.panX
    y := worldPos.y * transform.zoom + transform.panY }

/-- `screenToWorld` from `CoordinateTransform.ts` lines 31-36. -/
def screenToWorld (screenPos : Point) (transform : Transform) : Point :=
  { x := (screenPos.x - transform.panX) / transform.zoom
    y := (screenPos.y - transform.panY) / transform.zoom }

/-- `applyPan` from `CoordinateTransform.ts` lines 42-48. -/
def applyPan (transform : Transform) (panDelta : Point) : Transform :=
  { transform with
    panX := transform.panX + panDelta.x
    panY := transform.panY + panDelta.y }

/-- `applyZoom` from `CoordinateTransform.ts` lines 57-79.
`Math.max(0.1, Math.min(5, z * (1 + d)))` is `max (1/10) (min 5 (z * (1 + d)))`. -/
def applyZoom (transform : Transform) (zoomDelta : ℚ)
    (cursorScreenPos : Point) : Transform :=
  let worldPoint := screenToWorld cursorScreenPos transform
  let newZoom := max (1/10) (min 5 (transform.zoom * (1 + zoomDelta)))
  { panX := cursorScreenPos.x - worldPoint.x * newZoom
    panY := cursorScreenPos.y - worldPoint.y * newZoom
    zoom := newZoom }

/-- `applyZoom` from the snapshot `src/unnamed/part_000` lines 57-85: it
re-derives pan from a second screen-to-world conversion performed after
changing zoom (the spread `{...transform, zoom: newZoom}` keeps the old pan). -/
def applyZoomV0 (transform : Transform) (zoomDelta : ℚ)
    (cursorScreenPos : Point) : Transform :=
  let cursorWorldBefore := screenToWorld cursorScreenPos transform
  let newZoom := max (1/10) (min 5 (transform.zoom * (1 + zoomDelta)))
  let cursorWorldAfter :=
    screenToWorld cursorScreenPos { transform with zoom := newZoom }
  let worldDelta : Point :=
    { x := cursorWorldBefore.x - cursorWorldAfter.x
      y := cursorWorldBefore.y - cursorWorldAfter.y }
  { panX := transform.panX + worldDelta.x * newZoom
    panY := transform.panY + worldDelta.y * newZoom
    zoom := newZoom }

/-- A viewport operation: either a zoom step or a pan step, as issued by the
wheel and pan handlers of `App.tsx`. -/
inductive ViewportOp where
  | zoomOp (zoomDelta : ℚ) (cursorScreenPos : Point)
  | panOp (panDelta : Point)
deriving DecidableEq, Repr

/-- Apply one viewport operation. -/
def applyViewportOp (t : Transform) (op : ViewportOp) : Transform :=
  match op with
  | .zoomOp d c => applyZoom t d c
  | .panOp d => applyPan t d

lemma applyZoom_zoom_mem (t : Transform) (d : ℚ) (c : Point) :
    1/10 ≤ (applyZoom t d c).zoom ∧ (applyZoom t d c).zoom ≤ 5 := by
  refine ⟨le_max_left _ _, max_le (by norm_num) (min_le_left _ _)⟩

lemma applyViewportOp_zoom_mem (t : Transform) (op : ViewportOp)
    (h1 : 1/10 ≤ t.zoom) (h2 : t.zoom ≤ 5) :
    1/10 ≤ (applyViewportOp t op).zoom ∧ (applyViewportOp t op).zoom ≤ 5 := by
  cases op with
  | zoomOp d c => exact applyZoom_zoom_mem t d c
  | panOp d => exact ⟨h1, h2⟩

lemma foldl_viewportOps_zoom_mem (ops : List ViewportOp) :
    ∀ t : Transform, 1/10 ≤ t.zoom → t.zoom ≤ 5 →
      1/10 ≤ (ops.foldl applyViewportOp t).zoom ∧
        (ops.foldl applyViewportOp t).zoom ≤ 5 := by
  induction ops with
  | nil => exact fun t h1 h2 => ⟨h1, h2⟩
  | cons op ops ih =>
    intro t h1 h2
    obtain ⟨g1, g2⟩ := applyViewportOp_zoom_mem t op h1 h2
    exact ih (applyViewportOp t op) g1 g2

/-- C1: the world point under the cursor stays visually fixed across a zoom:
for every transform with nonzero zoom, every cursor position and every
zoomDelta, `worldToScreen (screenToWorld c t) (applyZoom t d c) = c`
exactly over the rationals. -/
theorem zoom_anchor_invariant (t : Transform) (zoomDelta : ℚ) (c : Point)
    (_hz : t.zoom ≠ 0) :
    worldToScreen (screenToWorld c t) (applyZoom t zoomDelta c) = c := by
  simp only [worldToScreen, screenToWorld, applyZoom]
  cases c with
  | mk cx cy => simp only [Point.mk.injEq]; constructor <;> ring

/-- Witness for C1 at a concrete transform, delta and cursor. -/
theorem zoom_anchor_invariant_witness :
    worldToScreen
      (screenToWorld ⟨320, 200⟩ ⟨12, -7, 2⟩)
      (applyZoom ⟨12, -7, 2⟩ (1/2) ⟨320, 200⟩) = ⟨320, 200⟩ :=
  zoom_anchor_invariant ⟨12, -7, 2⟩ (1/2) ⟨320, 200⟩ (by norm_num)

/-- C5: `screenToWorld` is the exact algebraic inverse of `worldToScreen`:
for every point and every transform with nonzero zoom,
`screenToWorld (worldToScreen p t) t = p` exactly over the rationals. -/
theorem screen_world_round_trip (p : Point) (t : Transform)
    (hz : t.zoom ≠ 0) :
    screenToWorld (worldToScreen p t) t = p := by
  simp only [worldToScreen, screenToWorld]
  cases p with
  | mk px py =>
    simp only [Point.mk.injEq]
    constructor <;> · field_simp

/-- Witness for C5 at a concrete point and transform. -/
theorem screen_world_round_trip_witness :
    screenToWorld (worldToScreen ⟨3, -4⟩ ⟨100, 50, 1/4⟩) ⟨100, 50, 1/4⟩
      = ⟨3, -4⟩ :=
  screen_world_round_trip ⟨3, -4⟩ ⟨100, 50, 1/4⟩ (by norm_num)

/-- C6: starting from a zoom in `[0.1, 5]`, one `applyZoom` (for any
zoomDelta and cursor) lands in `[0.1, 5]`, and any finite sequence of
`applyZoom` / `applyPan` operations keeps the zoom inside `[0.1, 5]`. -/
theorem zoom_clamp_invariant (t : Transform) (d : ℚ) (c : Point)
    (ops : List ViewportOp) (h1 : 1/10 ≤ t.zoom) (h2 : t.zoom ≤ 5) :
    (1/10 ≤ (applyZoom t d c).zoom ∧ (applyZoom t d c).zoom ≤ 5) ∧
      (1/10 ≤ (ops.foldl applyViewportOp t).zoom ∧
        (ops.foldl applyViewportOp t).zoom ≤ 5) :=
  ⟨applyZoom_zoom_mem t d c, foldl_viewportOps_zoom_mem ops t h1 h2⟩

/-- Witness for C6: a huge zoom-out followed by a huge zoom-in and a pan
stays clamped. -/
theorem zoom_clamp_invariant_witness :
    (1/10 ≤ (applyZoom ⟨0, 0, 1⟩ 1000 ⟨5, 5⟩).zoom ∧
        (applyZoom ⟨0, 0, 1⟩ 1000 ⟨5, 5⟩).zoom ≤ 5) ∧
      (1/10 ≤ (([ViewportOp.zoomOp (-2) ⟨0, 0⟩,
            ViewportOp.zoomOp 1000 ⟨3, 4⟩,
            ViewportOp.panOp ⟨17, -8⟩].foldl applyViewportOp ⟨0, 0, 1⟩)).zoom ∧
        (([ViewportOp.zoomOp (-2) ⟨0, 0⟩,
            ViewportOp.zoomOp 1000 ⟨3, 4⟩,
            ViewportOp.panOp ⟨17, -8⟩].foldl applyViewportOp ⟨0, 0, 1⟩)).zoom ≤ 5) :=
  zoom_clamp_invariant ⟨0, 0, 1⟩ 1000 ⟨5, 5⟩ _ (by norm_num) (by norm_num)

/-- C8: the snapshot `applyZoom` of `src/unnamed/part_000` (which re-derives
pan from a second screen-to-world conversion after changing zoom) is not
extensionally equal to the direct-algebraic `applyZoom` of
`CoordinateTransform.ts`: at `t = (0,0,zoom 1)`, `zoomDelta = 1`,
`cursor = (100,0)` the clamped new zoom (2) differs from the old zoom, the
two functions return different transforms, and the part_000 version fails
to keep the cursor's world anchor fixed on screen. -/
theorem applyZoomV0_not_equivalent :
    ∃ (t : Transform) (d : ℚ) (c : Point),
      (applyZoomV0 t d c).zoom ≠ t.zoom ∧
        applyZoomV0 t d c ≠ applyZoom t d c ∧
        worldToScreen (screenToWorld c t) (applyZoomV0 t d c) ≠ c := by
  refine ⟨⟨0, 0, 1⟩, 1, ⟨100, 0⟩, ?_, ?_, ?_⟩ <;>
    norm_num [applyZoomV0, applyZoom, screenToWorld, worldToScreen,
      min_def, max_def, Transform.mk.injEq, Point.mk.injEq]

/-- Rectangle shape (`src/types.ts`, `Rectangle`). The constant
`type: 'rectangle'` discriminant is omitted: `Shape = Rectangle` is the only
variant. -/
structure Rectangle where
  id : String
  x : ℚ
  y : ℚ
  width : ℚ
  height : ℚ
  fill : String
  stroke : String
  strokeWidth : ℚ
deriving DecidableEq, Repr

/-- The eight named resize handles (`src/types.ts`, `ResizeHandle`). -/
inductive ResizeHandle where
  | topLeft
  | topRight
  | bottomLeft
  | bottomRight
  | top
  | right
  | bottom
  | left
deriving DecidableEq, Repr

/-- `HANDLE_SIZE` from `ResizeHandles.ts`. -/
def HANDLE_SIZE : ℚ := 8

/-- `HANDLE_HIT_MARGIN` from `ResizeHandles.ts`. -/
def HANDLE_HIT_MARGIN : ℚ := 4

/-- `getHandlePositions` from `ResizeHandles.ts` lines 14-27, one handle at a
time. -/
def getHandlePosition (rect : Rectangle) (h : ResizeHandle) : Point :=
  match h with
  | .topLeft => ⟨rect.x, rect.y⟩
  | .topRight => ⟨rect.x + rect.width, rect.y⟩
  | .bottomLeft => ⟨rect.x, rect.y + rect.height⟩
  | .bottomRight => ⟨rect.x + rect.width, rect.y + rect.height⟩
  | .top => ⟨rect.x + rect.width / 2, rect.y⟩
  | .right => ⟨rect.x + rect.width, rect.y + rect.height / 2⟩
  | .bottom => ⟨rect.x + rect.width / 2, rect.y + rect.height⟩
  | .left => ⟨rect.x, rect.y + rect.height / 2⟩

/-- The fixed priority order of `hitTestHandle` (corners before edges). -/
def handleOrder : List ResizeHandle :=
  [.topLeft, .topRight, .bottomLeft, .bottomRight, .top, .right, .bottom, .left]

/-- `hitTestHandle` from `ResizeHandles.ts` lines 33-68: both the handle and
the click are converted to screen space and compared by Euclidean distance
against `HANDLE_SIZE / 2 + HANDLE_HIT_MARGIN`. The source compares
`sqrt(dx² + dy²) ≤ r`; over the rationals this is embedded as the equivalent
squared comparison `dx² + dy² ≤ r²` (both sides are nonnegative). -/
def hitTestHandle (worldPos : Point) (rect : Rectangle)
    (transform : Transform) : Option ResizeHandle :=
  handleOrder.find? fun handle =>
    let handleScreenPos := worldToScreen (getHandlePosition rect handle) transform
    let clickScreenPos := worldToScreen worldPos transform
    let distSq := (handleScreenPos.x - clickScreenPos.x) ^ 2 +
      (handleScreenPos.y - clickScreenPos.y) ^ 2
    distSq ≤ (HANDLE_SIZE / 2 + HANDLE_HIT_MARGIN) ^ 2

/-- `MIN_SIZE` from `applyResize` in `ResizeHandles.ts`. -/
def MIN_SIZE : ℚ := 10

/-- `applyResize` from `ResizeHandles.ts` lines 73-164, branch for branch. -/
def applyResize (originalRect : Rectangle) (handle : ResizeHandle)
    (currentWorldPos startWorldPos : Point) : Rectangle :=
  let dx := currentWorldPos.x - startWorldPos.x
  let dy := currentWorldPos.y - startWorldPos.y
  match handle with
  | .topLeft =>
    let newWidth := originalRect.width - dx
    let newHeight := originalRect.height - dy
    let r1 :=
      if newWidth ≥ MIN_SIZE then
        { originalRect with x := originalRect.x + dx, width := newWidth }
      else
        { originalRect with
          x := originalRect.x + originalRect.width - MIN_SIZE
          width := MIN_SIZE }
    if newHeight ≥ MIN_SIZE then
      { r1 with y := originalRect.y + dy, height := newHeight }
    else
      { r1 with
        y := originalRect.y + originalRect.height - MIN_SIZE
        height := MIN_SIZE }
  | .topRight =>
    let newWidth := originalRect.width + dx
    let newHeight := originalRect.height - dy
    let r1 := { originalRect with width := max MIN_SIZE newWidth }
    if newHeight ≥ MIN_SIZE then
      { r1 with y := originalRect.y + dy, height := newHeight }
    else
      { r1 with
        y := originalRect.y + originalRect.height - MIN_SIZE
        height := MIN_SIZE }
  | .bottomLeft =>
    let newWidth := originalRect.width - dx
    let newHeight := originalRect.height + dy
    let r1 :=
      if newWidth ≥ MIN_SIZE then
        { originalRect with x := originalRect.x + dx, width := newWidth }
      else
        { originalRect with
          x := originalRect.x + originalRect.width - MIN_SIZE
          width := MIN_SIZE }
    { r1 with height := max MIN_SIZE newHeight }
  | .bottomRight =>
    { originalRect with
      width := max MIN_SIZE (originalRect.width + dx)
      height := max MIN_SIZE (originalRect.height + dy) }
  | .top =>
    let newHeight := originalRect.height - dy
    if newHeight ≥ MIN_SIZE then
      { originalRect with y := originalRect.y + dy, height := newHeight }
    else
      { originalRect with
        y := originalRect.y + originalRect.height - MIN_SIZE
        height := MIN_SIZE }
  | .right =>
    { originalRect with width := max MIN_SIZE (originalRect.width + dx) }
  | .bottom =>
    { originalRect with height := max MIN_SIZE (originalRect.height + dy) }
  | .left =>
    let newWidth := originalRect.width - dx
    if newWidth ≥ MIN_SIZE then
      { originalRect with x := originalRect.x + dx, width := newWidth }
    else
      { originalRect with
        x := originalRect.x + originalRect.width - MIN_SIZE
        width := MIN_SIZE }

/-- The handles that drag the left edge of the rectangle (the width is
recomputed as `width - dx` and the x origin moves). -/
def dragsLeftEdge : ResizeHandle → Bool
  | .topLeft | .bottomLeft | .left => true
  | _ => false

/-- The handles that drag the right edge (`width + dx`, x origin fixed). -/
def dragsRightEdge : ResizeHandle → Bool
  | .topRight | .bottomRight | .right => true
  | _ => false

/-- The handles that drag the top edge (`height - dy`, y origin moves). -/
def dragsTopEdge : ResizeHandle → Bool
  | .topLeft | .topRight | .top => true
  | _ => false

/-- The handles that drag the bottom edge (`height + dy`, y origin fixed). -/
def dragsBottomEdge : ResizeHandle → Bool
  | .bottomLeft | .bottomRight | .bottom => true
  | _ => false

/-- C2: for any original rectangle with `width, height ≥ 10`, any handle and
any start/current world positions, `applyResize` returns a rectangle with
`width ≥ 10` and `height ≥ 10`; and whenever a dimension is clamped (the
proposed size fell below 10), the edge opposite the dragged one stays at its
pre-resize coordinate: for left-dragging handles the right edge
`x + width`, for right-dragging handles the left edge `x`, for top-dragging
handles the bottom edge `y + height`, for bottom-dragging handles the top
edge `y`. The two dimensions are handled independently on corner handles. -/
theorem applyResize_min_size_anchor (rect : Rectangle) (handle : ResizeHandle)
    (cur start : Point) (hw : 10 ≤ rect.width) (hh : 10 ≤ rect.height) :
    (10 ≤ (applyResize rect handle cur start).width ∧
      10 ≤ (applyResize rect handle cur start).height) ∧
    (dragsLeftEdge handle = true → rect.width - (cur.x - start.x) < 10 →
      (applyResize rect handle cur start).x +
        (applyResize rect handle cur start).width = rect.x + rect.width) ∧
    (dragsRightEdge handle = true → rect.width + (cur.x - start.x) < 10 →
      (applyResize rect handle cur start).x = rect.x) ∧
    (dragsTopEdge handle = true → rect.height - (cur.y - start.y) < 10 →
      (applyResize rect handle cur start).y +
        (applyResize rect handle cur start).height = rect.y + rect.height) ∧
    (dragsBottomEdge handle = true → rect.height + (cur.y - start.y) < 10 →
      (applyResize rect handle cur start).y = rect.y) := by
  cases handle <;>
      simp only [applyResize, dragsLeftEdge, dragsRightEdge, dragsTopEdge,
        dragsBottomEdge, MIN_SIZE, ge_iff_le] <;>
      (try split_ifs) <;>
      (try dsimp only) <;>
      refine ⟨⟨?_, ?_⟩, ?_, ?_, ?_, ?_⟩ <;>
    first
      | trivial
      | assumption
      | exact le_sup_left
      | exact le_max_left _ _
      | norm_num

/-- Witness for C2: a 100×60 rectangle dragged by its top-left corner far
past the opposite corner clamps both dimensions and anchors the
bottom-right corner at (150, 110). -/
theorem applyResize_min_size_anchor_witness :
    ((10 ≤ (applyResize ⟨"a", 50, 50, 100, 60, "f", "s", 2⟩ .topLeft
          ⟨500, 400⟩ ⟨50, 50⟩).width ∧
        10 ≤ (applyResize ⟨"a", 50, 50, 100, 60, "f", "s", 2⟩ .topLeft
          ⟨500, 400⟩ ⟨50, 50⟩).height) ∧
      (dragsLeftEdge .topLeft = true → (100 : ℚ) - (500 - 50) < 10 →
        (applyResize ⟨"a", 50, 50, 100, 60, "f", "s", 2⟩ .topLeft
            ⟨500, 400⟩ ⟨50, 50⟩).x +
          (applyResize ⟨"a", 50, 50, 100, 60, "f", "s", 2⟩ .topLeft
            ⟨500, 400⟩ ⟨50, 50⟩).width = 50 + 100) ∧
      (dragsRightEdge .topLeft = true → (100 : ℚ) + (500 - 50) < 10 →
        (applyResize ⟨"a", 50, 50, 100, 60, "f", "s", 2⟩ .topLeft
          ⟨500, 400⟩ ⟨50, 50⟩).x = 50) ∧
      (dragsTopEdge .topLeft = true → (60 : ℚ) - (400 - 50) < 10 →
        (applyResize ⟨"a", 50, 50, 100, 60, "f", "s", 2⟩ .topLeft
            ⟨500, 400⟩ ⟨50, 50⟩).y +
          (applyResize ⟨"a", 50, 50, 100, 60, "f", "s", 2⟩ .topLeft
            ⟨500, 400⟩ ⟨50, 50⟩).height = 50 + 60) ∧
      (dragsBottomEdge .topLeft = true → (60 : ℚ) + (400 - 50) < 10 →
        (applyResize ⟨"a", 50, 50, 100, 60, "f", "s", 2⟩ .topLeft
          ⟨500, 400⟩ ⟨50, 50⟩).y = 50)) :=
  applyResize_min_size_anchor ⟨"a", 50, 50, 100, 60, "f", "s", 2⟩ .topLeft
    ⟨500, 400⟩ ⟨50, 50⟩ (by norm_num) (by norm_num)

/-- Active resizing state (`src/types.ts`, `ResizingState`). -/
structure ResizingState where
  shapeId : String
  handle : ResizeHandle
  startWorldPos : Point
  startShape : Rectangle
deriving DecidableEq, Repr

/-- Active dragging state (`src/types.ts`, `DraggingState`). -/
structure DraggingState where
  shapeId : String
  startWorldPos : Point
  startShapePos : Point
deriving DecidableEq, Repr

/-- Editor state (`src/types.ts`, `EditorState`); `Shape = Rectangle`. -/
structure EditorState where
  shapes : List Rectangle
  selectedShapeId : Option String
  transform : Transform
  resizing : Option ResizingState
  dragging : Option DraggingState
deriving DecidableEq, Repr

/-- `createInitialState` from the SceneGraph snapshot `src/unnamed/part_001`
lines 10-21. The snapshot's object literal has no `dragging` key; reading the
missing key yields the same absent value as `resizing: null`, so both are
`none`. -/
def createInitialState : EditorState :=
  { shapes := []
    selectedShapeId := none
    transform := { panX := 0, panY := 0, zoom := 1 }
    resizing := none
    dragging := none }

/-- `createRectangle` from `src/unnamed/part_001` lines 26-46, with the
defaults `width = 100`, `height = 60`, fill, stroke and strokeWidth from the
source. `generateId()` (built from `Date.now()` and `Math.random()`) is
modelled by an explicit fresh counter supplied by the caller; its only role
in the engine is to be an identifier. -/
def createRectangle (freshId : String) (x y : ℚ) : Rectangle :=
  { id := freshId
    x := x
    y := y
    width := 100
    height := 60
    fill := "#4a90e2"
    stroke := "#1e3a8a"
    strokeWidth := 2 }

/-- A `Partial<Shape>` (every field optional), the `updates` argument of
`updateShape`. -/
structure ShapeUpdates where
  id : Option String := none
  x : Option ℚ := none
  y : Option ℚ := none
  width : Option ℚ := none
  height : Option ℚ := none
  fill : Option String := none
  stroke : Option String := none
  strokeWidth : Option ℚ := none
deriving DecidableEq, Repr

/-- The object spread `{...s, ...updates}`: a present field of `updates`
overrides the corresponding field of `s`. -/
def mergeShape (s : Rectangle) (u : ShapeUpdates) : Rectangle :=
  { id := u.id.getD s.id
    x := u.x.getD s.x
    y := u.y.getD s.y
    width := u.width.getD s.width
    height := u.height.getD s.height
    fill := u.fill.getD s.fill
    stroke := u.stroke.getD s.stroke
    strokeWidth := u.strokeWidth.getD s.strokeWidth }

/-- View a full `Rectangle` as a `Partial<Shape>` with every field present,
as when `App.tsx` passes the whole `newRect` to `updateShape`. -/
def fullUpdates (r : Rectangle) : ShapeUpdates :=
  { id := some r.id
    x := some r.x
    y := some r.y
    width := some r.width
    height := some r.height
    fill := some r.fill
    stroke := some r.stroke
    strokeWidth := some r.strokeWidth }

/-- A `{x, y}` position-only update, as passed by the drag handler. -/
def xyUpdates (x y : ℚ) : ShapeUpdates :=
  { id := none, x := some x, y := some y, width := none, height := none
    fill := none, stroke := none, strokeWidth := none }

/-- `addShape` from `src/unnamed/part_001` lines 51-57. -/
def addShape (state : EditorState) (shape : Rectangle) : EditorState :=
  { state with
    shapes := state.shapes ++ [shape]
    selectedShapeId := some shape.id }

/-- `removeShape` from `src/unnamed/part_001` lines 62-69. -/
def removeShape (state : EditorState) (shapeId : String) : EditorState :=
  { state with
    shapes := state.shapes.filter fun s => s.id ≠ shapeId
    selectedShapeId :=
      if state.selectedShapeId = some shapeId then none
      else state.selectedShapeId }

/-- `updateShape` from `src/unnamed/part_001` lines 74-85. -/
def updateShape (state : EditorState) (shapeId : String)
    (updates : ShapeUpdates) : EditorState :=
  { state with
    shapes := state.shapes.map fun s =>
      if s.id = shapeId then mergeShape s updates else s }

/-- `selectShape` from `src/unnamed/part_001` lines 90-98. -/
def selectShape (state : EditorState) (shapeId : Option String) : EditorState :=
  { state with selectedShapeId := shapeId }

/-- `getShapeById` from `src/unnamed/part_001` lines 111-113. -/
def getShapeById (state : EditorState) (id : String) : Option Rectangle :=
  state.shapes.find? fun s => s.id = id

/-- `setTransform` from `src/unnamed/part_001` lines 118-126. -/
def setTransform (state : EditorState) (transform : Transform) : EditorState :=
  { state with transform := transform }

/-- The EditorState invariant of the spec: `selectedShapeId`, if present,
references a shape whose id occurs in the shapes list. -/
def selectedInv (state : EditorState) : Prop :=
  ∀ i, state.selectedShapeId = some i → ∃ sh ∈ state.shapes, sh.id = i

/-- History state (`src/utils/history.ts`, `HistoryState`). -/
structure HistoryState where
  past : List EditorState
  present : EditorState
  future : List EditorState
deriving DecidableEq, Repr

/-- `createHistoryState` from `history.ts` lines 16-22. -/
def createHistoryState (initialState : EditorState) : HistoryState :=
  { past := [], present := initialState, future := [] }

/-- `pushHistory` from `history.ts` lines 28-37. -/
def pushHistory (history : HistoryState) (newState : EditorState) :
    HistoryState :=
  { past := history.past ++ [history.present]
    present := newState
    future := [] }

/-- `undo` from `history.ts` lines 43-54: `null` when `past` is empty, else
pop the last past entry into `present` and prepend the old present to
`future`. -/
def undo (history : HistoryState) : Option HistoryState :=
  match history.past.getLast? with
  | none => none
  | some newPresent =>
    some { past := history.past.dropLast
           present := newPresent
           future := history.present :: history.future }

/-- `redo` from `history.ts` lines 60-71: `null` when `future` is empty, else
shift the first future entry into `present` and append the old present to
`past`. -/
def redo (history : HistoryState) : Option HistoryState :=
  match history.future with
  | [] => none
  | newPresent :: newFuture =>
    some { past := history.past ++ [history.present]
           present := newPresent
           future := newFuture }

/-- `canUndo` from `history.ts` lines 83-85. -/
def canUndo (history : HistoryState) : Bool :=
  history.past.length > 0

/-- `canRedo` from `history.ts` lines 90-92. -/
def canRedo (history : HistoryState) : Bool :=
  history.future.length > 0

/-- C3: for every history `h` and state `s`, `undo (pushHistory h s)`
succeeds and its present is exactly `h.present`, and redoing that result
succeeds and restores `present = s`. -/
theorem history_round_trip (h : HistoryState) (s : EditorState) :
    ∃ h₁, undo (pushHistory h s) = some h₁ ∧ h₁.present = h.present ∧
      ∃ h₂, redo h₁ = some h₂ ∧ h₂.present = s := by
  refine ⟨{ past := h.past, present := h.present, future := [s] }, ?_, rfl,
    { past := h.past ++ [h.present], present := s, future := [] }, rfl, rfl⟩
  simp [undo, pushHistory, List.getLast?_concat, List.dropLast_concat]

/-- C7: `pushHistory h s` always has an empty `future` (so `canRedo` is false
after any push, in particular after an undo) and its past is `h.past` with
`h.present` appended. -/
theorem push_discards_future (h : HistoryState) (s : EditorState) :
    (pushHistory h s).future = [] ∧
      (pushHistory h s).past = h.past ++ [h.present] ∧
      canRedo (pushHistory h s) = false := by
  exact ⟨rfl, rfl, rfl⟩

/-- Counterexample to C9: `selectShape` accepts an id with no matching shape
and `updateShape` can rewrite the selected shape's id, so not every
SceneGraph operation preserves the selection invariant for every argument.
Concretely, selecting `"ghost"` in the (invariant-satisfying) initial state
dangles, and updating the selected shape `"a"` with `{id: "b"}` dangles. -/
theorem sceneGraph_invariant_counterexample :
    selectedInv createInitialState ∧
      ¬ selectedInv (selectShape createInitialState (some "ghost")) ∧
      selectedInv
        { shapes := [⟨"a", 0, 0, 100, 60, "f", "s", 2⟩]
          selectedShapeId := some "a"
          transform := ⟨0, 0, 1⟩
          resizing := none
          dragging := none } ∧
      ¬ selectedInv
        (updateShape
          { shapes := [⟨"a", 0, 0, 100, 60, "f", "s", 2⟩]
            selectedShapeId := some "a"
            transform := ⟨0, 0, 1⟩
            resizing := none
            dragging := none }
          "a" { id := some "b" }) := by
  refine ⟨?_, ?_, ?_, ?_⟩
  · intro i hi
    simp [createInitialState] at hi
  · intro hInv
    obtain ⟨sh, hmem, _⟩ := hInv "ghost" rfl
    simp [selectShape, createInitialState] at hmem
  · intro i hi
    simp only [Option.some.injEq] at hi
    exact ⟨⟨"a", 0, 0, 100, 60, "f", "s", 2⟩, by simp, by simp [hi]⟩
  · intro hInv
    obtain ⟨sh, hmem, hid⟩ := hInv "a" rfl
    simp [updateShape, mergeShape] at hmem
    rw [hmem] at hid
    simp at hid

/-- C9 as amended: `addShape`, `removeShape` and `setTransform` preserve the
selection invariant unconditionally; `updateShape` preserves it provided the
partial update does not rewrite the shape id to a different value; and
`selectShape` preserves it provided its argument is null or the id of an
existing shape. -/
theorem sceneGraph_invariant_amended (state : EditorState) (shape : Rectangle)
    (shapeId : String) (updates : ShapeUpdates) (sid : Option String)
    (tr : Transform) (hInv : selectedInv state) :
    selectedInv (addShape state shape) ∧
      selectedInv (removeShape state shapeId) ∧
      (updates.id = none ∨ updates.id = some shapeId →
        selectedInv (updateShape state shapeId updates)) ∧
      (sid = none ∨ (∃ sh ∈ state.shapes, some sh.id = sid) →
        selectedInv (selectShape state sid)) ∧
      selectedInv (setTransform state tr) := by
  refine ⟨?_, ?_, ?_, ?_, ?_⟩
  · intro i hi
    simp only [addShape, Option.some.injEq] at hi
    exact ⟨shape, by simp [addShape], hi⟩
  · intro i hi
    simp only [removeShape] at hi
    split at hi
    · exact Option.noConfusion hi
    · next hne =>
      obtain ⟨sh, hmem, hid⟩ := hInv i hi
      refine ⟨sh, List.mem_filter.mpr ⟨hmem, ?_⟩, hid⟩
      simp only [decide_eq_true_eq]
      intro hcontra
      exact hne (by rw [hi, ← hid, hcontra])
  · intro hid i hi
    simp only [updateShape] at hi ⊢
    obtain ⟨sh, hmem, hsid⟩ := hInv i hi
    refine ⟨if sh.id = shapeId then mergeShape sh updates else sh,
      List.mem_map.mpr ⟨sh, hmem, rfl⟩, ?_⟩
    by_cases hcase : sh.id = shapeId
    · have heq : shapeId = i := by rw [← hcase, hsid]
      rw [if_pos hcase]
      rcases hid with hnone | hsome
      · simp [mergeShape, hnone, hsid]
      · simp [mergeShape, hsome, heq]
    · rw [if_neg hcase]; exact hsid
  · intro hc i hi
    simp only [selectShape] at hi
    rcases hc with hnone | ⟨sh, hmem, hsh⟩
    · rw [hnone] at hi; exact absurd hi (by simp)
    · rw [hi] at hsh
      simp only [Option.some.injEq] at hsh
      exact ⟨sh, hmem, hsh⟩
  · exact fun i hi => hInv i hi

/-- Witness for amended C9 at the initial state with concrete arguments. -/
theorem sceneGraph_invariant_amended_witness :
    selectedInv (addShape createInitialState ⟨"a", 0, 0, 100, 60, "f", "s", 2⟩) ∧
      selectedInv (removeShape createInitialState "a") ∧
      ((xyUpdates 5 5).id = none ∨ (xyUpdates 5 5).id = some "a" →
        selectedInv (updateShape createInitialState "a" (xyUpdates 5 5))) ∧
      ((none : Option String) = none ∨
          (∃ sh ∈ createInitialState.shapes, some sh.id = none) →
        selectedInv (selectShape createInitialState none)) ∧
      selectedInv (setTransform createInitialState ⟨1, 2, 3⟩) :=
  sceneGraph_invariant_amended createInitialState
    ⟨"a", 0, 0, 100, 60, "f", "s", 2⟩ "a" (xyUpdates 5 5) none ⟨1, 2, 3⟩
    (by intro i hi; simp [createInitialState] at hi)

/-- The pointer and keyboard events consumed by `App.tsx`: mouse-down with
its button id and modifier, mouse-move, mouse-up (mouse-leave is wired to the
same handler), double-click, and the undo/redo keyboard shortcuts. -/
inductive Event where
  | mouseDown (button : Nat) (ctrlKey : Bool) (pos : Point)
  | mouseMove (pos : Point)
  | mouseUp
  | dblClick (pos : Point)
  | keyUndo
  | keyRedo
deriving DecidableEq, Repr

/-- The state held by the `App` component: the history (whose `present` is
the live editor state), the `isPanningRef` / `lastMousePosRef` refs, and a
fresh-id counter standing in for `generateId`. -/
structure AppState where
  history : HistoryState
  isPanning : Bool
  lastMousePos : Point
  nextId : Nat
deriving DecidableEq, Repr

/-- The point-in-rectangle hit test loop of `handleMouseDown`
(`App.tsx` lines 213-227): the first shape in creation order containing the
world position. -/
def hitTestShapes (shapes : List Rectangle) (worldPos : Point) :
    Option Rectangle :=
  shapes.find? fun shape =>
    worldPos.x ≥ shape.x ∧ worldPos.x ≤ shape.x + shape.width ∧
      worldPos.y ≥ shape.y ∧ worldPos.y ≤ shape.y + shape.height

/-- `handleMouseDown` from `App.tsx` lines 175-243. -/
def handleMouseDown (a : AppState) (button : Nat) (ctrlKey : Bool)
    (pos : Point) : AppState :=
  if button = 1 ∨ (button = 0 ∧ ctrlKey = true) then
    { a with isPanning := true, lastMousePos := pos }
  else if button = 0 then
    let state := a.history.present
    let worldPos := screenToWorld pos state.transform
    let resizeStart : Option ResizingState :=
      match state.selectedShapeId with
      | some selId =>
        match getShapeById state selId with
        | some selectedShape =>
          match hitTestHandle worldPos selectedShape state.transform with
          | some handle =>
            some { shapeId := selectedShape.id
                   handle := handle
                   startWorldPos := worldPos
                   startShape := selectedShape }
          | none => none
        | none => none
      | none => none
    match resizeStart with
    | some rz =>
      { a with history :=
          { a.history with present := { state with resizing := some rz } } }
    | none =>
      match hitTestShapes state.shapes worldPos with
      | some hitShape =>
        { a with history :=
            { a.history with present :=
                { selectShape state (some hitShape.id) with
                  dragging := some
                    { shapeId := hitShape.id
                      startWorldPos := worldPos
                      startShapePos := ⟨hitShape.x, hitShape.y⟩ } } } }
      | none =>
        { a with history :=
            { a.history with present := selectShape state none } }
  else a

/-- The editor-state part of `handleMouseMove` (`App.tsx` lines 245-285):
an active resize recomputes geometry with `applyResize` from the gesture's
start snapshot (passing the whole new rectangle to `updateShape`), an active
drag translates from the recorded start position by the total delta, and
otherwise the editor state is unchanged. -/
def editorMove (state : EditorState) (worldPos : Point) : EditorState :=
  match state.resizing with
  | some rz =>
    updateShape state rz.shapeId
      (fullUpdates (applyResize rz.startShape rz.handle worldPos
        rz.startWorldPos))
  | none =>
    match state.dragging with
    | some dg =>
      updateShape state dg.shapeId
        (xyUpdates (dg.startShapePos.x + (worldPos.x - dg.startWorldPos.x))
          (dg.startShapePos.y + (worldPos.y - dg.startWorldPos.y)))
    | none => state

/-- `handleMouseMove` from `App.tsx` lines 245-325; the trailing
hover-cursor update touches only the cursor style, not the editor state. -/
def handleMouseMove (a : AppState) (pos : Point) : AppState :=
  let state := a.history.present
  let worldPos := screenToWorld pos state.transform
  if state.resizing.isSome ∨ state.dragging.isSome then
    { a with history := { a.history with present := editorMove state worldPos } }
  else if a.isPanning then
    let delta : Point := ⟨pos.x - a.lastMousePos.x, pos.y - a.lastMousePos.y⟩
    { a with
      history := { a.history with
        present := setTransform state (applyPan state.transform delta) }
      lastMousePos := pos }
  else a

/-- `handleMouseUp` from `App.tsx` lines 327-337: stop panning; if a resize
or drag gesture is active, commit through `pushHistory` the present with
`resizing`/`dragging` removed (the pre-commit present itself is what gets
appended to `past`). -/
def handleMouseUp (a : AppState) : AppState :=
  let a1 := { a with isPanning := false }
  let state := a1.history.present
  if state.resizing.isSome ∨ state.dragging.isSome then
    { a1 with history :=
        pushHistory a1.history { state with resizing := none, dragging := none } }
  else a1

/-- `handleDoubleClick` from `App.tsx` lines 340-351. -/
def handleDblClick (a : AppState) (pos : Point) : AppState :=
  let state := a.history.present
  let worldPos := screenToWorld pos state.transform
  let newRect :=
    createRectangle ("shape_" ++ toString a.nextId) worldPos.x worldPos.y
  { a with
    history := pushHistory a.history (addShape state newRect)
    nextId := a.nextId + 1 }

/-- The undo keyboard handler (`App.tsx` lines 130-139): apply `undo` when it
succeeds, keep the history otherwise. -/
def handleKeyUndo (a : AppState) : AppState :=
  match undo a.history with
  | some h => { a with history := h }
  | none => a

/-- The redo keyboard handler (`App.tsx` lines 140-150). -/
def handleKeyRedo (a : AppState) : AppState :=
  match redo a.history with
  | some h => { a with history := h }
  | none => a

/-- One event-handler dispatch. -/
def step (a : AppState) (e : Event) : AppState :=
  match e with
  | .mouseDown button ctrlKey pos => handleMouseDown a button ctrlKey pos
  | .mouseMove pos => handleMouseMove a pos
  | .mouseUp => handleMouseUp a
  | .dblClick pos => handleDblClick a pos
  | .keyUndo => handleKeyUndo a
  | .keyRedo => handleKeyRedo a

/-- The initial application state (`App.tsx` lines 40-52, with no saved
state in storage). -/
def initialAppState : AppState :=
  { history := createHistoryState createInitialState
    isPanning := false
    lastMousePos := ⟨0, 0⟩
    nextId := 0 }

/-- Run the editor from the initial state over a list of events. -/
def run (events : List Event) : AppState :=
  events.foldl step initialAppState

/-- Counterexample to C4: the editor reaches a history whose `past` holds a
snapshot with `resizing ≠ null`. Double-click at (50,50) creates and selects
a 100×60 rectangle; mouse-down on its top-left handle starts a resize
(transiently, in the live present); mouse-up commits through `pushHistory`,
which appends the still-resizing pre-commit present to `past`. -/
theorem committed_snapshot_transient_counterexample :
    ((run [Event.dblClick ⟨50, 50⟩, Event.mouseDown 0 false ⟨50, 50⟩,
        Event.mouseUp]).history.past.any fun s => s.resizing.isSome) = true := by
  norm_num [run, step, handleDblClick, handleMouseDown, handleMouseUp,
    createRectangle, createInitialState, initialAppState, addShape,
    pushHistory, createHistoryState, screenToWorld, getShapeById,
    hitTestHandle, handleOrder, getHandlePosition, worldToScreen,
    HANDLE_SIZE, HANDLE_HIT_MARGIN, selectShape, List.find?, List.any]

/-- C4 as amended: the live present immediately after any mouse-up has
`resizing = null` and `dragging = null` (a gesture commit strips them from
the new present), but the snapshot appended to `past` by that commit is the
final in-gesture present and retains its non-null `resizing`/`dragging`, so
committed snapshots in `past`/`future` are not free of transient gesture
state. -/
theorem mouse_up_clears_live_transient (events : List Event) :
    (run (events ++ [Event.mouseUp])).history.present.resizing = none ∧
      (run (events ++ [Event.mouseUp])).history.present.dragging = none := by
  have hrun : run (events ++ [Event.mouseUp]) = handleMouseUp (run events) := by
    simp [run, List.foldl_append, step]
  rw [hrun]
  simp only [handleMouseUp]
  split
  · exact ⟨rfl, rfl⟩
  · next h =>
    push_neg at h
    obtain ⟨h1, h2⟩ := h
    exact ⟨Option.not_isSome_iff_eq_none.mp h1,
      Option.not_isSome_iff_eq_none.mp h2⟩

lemma mergeShape_fullUpdates (s r : Rectangle) :
    mergeShape s (fullUpdates r) = r :=
  rfl

lemma applyResize_id (rect : Rectangle) (handle : ResizeHandle)
    (cur start : Point) : (applyResize rect handle cur start).id = rect.id := by
  cases handle <;> simp only [applyResize] <;> split_ifs <;> rfl

lemma updateShape_updateShape (state : EditorState) (i : String)
    (u1 u2 : ShapeUpdates)
    (hu1 : ∀ sh : Rectangle, sh.id = i → (mergeShape sh u1).id = i)
    (hmerge : ∀ sh : Rectangle, mergeShape (mergeShape sh u1) u2 = mergeShape sh u2) :
    updateShape (updateShape state i u1) i u2 = updateShape state i u2 := by
  have hs : ∀ sh : Rectangle,
      (fun s => if s.id = i then mergeShape s u2 else s)
          ((fun s => if s.id = i then mergeShape s u1 else s) sh) =
        if sh.id = i then mergeShape sh u2 else sh := by
    intro sh
    by_cases h : sh.id = i
    · simp only [if_pos h, if_pos (hu1 sh h), hmerge]
    · simp only [if_neg h]
  simp only [updateShape, List.map_map]
  exact congrArg (fun L => { state with shapes := L })
    (List.map_congr_left fun sh _ => hs sh)

lemma editorMove_resizing (state : EditorState) (w : Point) :
    (editorMove state w).resizing = state.resizing := by
  unfold editorMove
  cases h : state.resizing with
  | some rz => exact h
  | none =>
    cases h2 : state.dragging with
    | some dg => exact h
    | none => exact h

lemma editorMove_dragging (state : EditorState) (w : Point) :
    (editorMove state w).dragging = state.dragging := by
  unfold editorMove
  cases h : state.resizing with
  | some rz => rfl
  | none =>
    cases h2 : state.dragging with
    | some dg => exact h2
    | none => exact h2

/-- The gesture-start hypothesis of C10: an active resize whose start
snapshot is a snapshot of the resized shape (as recorded by
`handleMouseDown`), or an active drag. -/
def gestureActive (state : EditorState) : Prop :=
  (∃ rz, state.resizing = some rz ∧ rz.startShape.id = rz.shapeId) ∨
    (state.resizing = none ∧ state.dragging.isSome)

lemma editorMove_collapse (state : EditorState) (w w2 : Point)
    (h : gestureActive state) :
    editorMove (editorMove state w) w2 = editorMove state w2 := by
  rcases h with ⟨rz, hrz, hid⟩ | ⟨hrz, hdg⟩
  · have hrz' : (editorMove state w).resizing = some rz := by
      rw [editorMove_resizing, hrz]
    rw [show editorMove state w =
        updateShape state rz.shapeId (fullUpdates (applyResize rz.startShape
          rz.handle w rz.startWorldPos)) by simp [editorMove, hrz]]
    have hmid : ∀ q : Point,
        editorMove (updateShape state rz.shapeId (fullUpdates
          (applyResize rz.startShape rz.handle w rz.startWorldPos))) q =
        updateShape (updateShape state rz.shapeId (fullUpdates
            (applyResize rz.startShape rz.handle w rz.startWorldPos)))
          rz.shapeId (fullUpdates (applyResize rz.startShape rz.handle q
            rz.startWorldPos)) := by
      intro q
      have : (updateShape state rz.shapeId (fullUpdates (applyResize
          rz.startShape rz.handle w rz.startWorldPos))).resizing = some rz := hrz
      simp [editorMove, this]
    rw [hmid w2]
    rw [updateShape_updateShape]
    · simp [editorMove, hrz]
    · intro sh _
      rw [mergeShape_fullUpdates, applyResize_id, hid]
    · intro sh
      rw [mergeShape_fullUpdates, mergeShape_fullUpdates]
  · obtain ⟨dg, hdg⟩ := Option.isSome_iff_exists.mp hdg
    have hw : editorMove state w = updateShape state dg.shapeId
        (xyUpdates (dg.startShapePos.x + (w.x - dg.startWorldPos.x))
          (dg.startShapePos.y + (w.y - dg.startWorldPos.y))) := by
      simp [editorMove, hrz, hdg]
    have hrz' : (updateShape state dg.shapeId
        (xyUpdates (dg.startShapePos.x + (w.x - dg.startWorldPos.x))
          (dg.startShapePos.y + (w.y - dg.startWorldPos.y)))).resizing
          = none := hrz
    have hdg' : (updateShape state dg.shapeId
        (xyUpdates (dg.startShapePos.x + (w.x - dg.startWorldPos.x))
          (dg.startShapePos.y + (w.y - dg.startWorldPos.y)))).dragging
          = some dg := hdg
    rw [hw]
    rw [show ∀ q : Point, editorMove (updateShape state dg.shapeId
        (xyUpdates (dg.startShapePos.x + (w.x - dg.startWorldPos.x))
          (dg.startShapePos.y + (w.y - dg.startWorldPos.y)))) q =
        updateShape (updateShape state dg.shapeId
          (xyUpdates (dg.startShapePos.x + (w.x - dg.startWorldPos.x))
            (dg.startShapePos.y + (w.y - dg.startWorldPos.y)))) dg.shapeId
          (xyUpdates (dg.startShapePos.x + (q.x - dg.startWorldPos.x))
            (dg.startShapePos.y + (q.y - dg.startWorldPos.y)))
      from fun q => by simp [editorMove, hrz', hdg']]
    rw [updateShape_updateShape]
    · simp [editorMove, hrz, hdg]
    · intro sh hsh
      simpa [mergeShape, xyUpdates] using hsh
    · intro sh
      simp [mergeShape, xyUpdates]

lemma gestureActive_editorMove (state : EditorState) (w : Point)
    (h : gestureActive state) : gestureActive (editorMove state w) := by
  rcases h with ⟨rz, hrz, hid⟩ | ⟨hrz, hdg⟩
  · exact Or.inl ⟨rz, by rw [editorMove_resizing, hrz], hid⟩
  · exact Or.inr ⟨by rw [editorMove_resizing, hrz],
      by rw [editorMove_dragging]; exact hdg⟩

/-- C10: within a gesture, the result depends only on the final world
position: folding the pointer-move update over any sequence of intermediate
world positions followed by a final position `p` equals applying the update
once with `p`, because each move recomputes geometry from the gesture-start
snapshot plus total delta. -/
theorem gesture_depends_only_on_final_position (state : EditorState)
    (ws : List Point) (p : Point) (h : gestureActive state) :
    (ws ++ [p]).foldl editorMove state = editorMove state p := by
  induction ws generalizing state with
  | nil => rfl
  | cons w ws ih =>
    have : ((w :: ws) ++ [p]).foldl editorMove state =
        (ws ++ [p]).foldl editorMove (editorMove state w) := rfl
    rw [this, ih (editorMove state w) (gestureActive_editorMove state w h),
      editorMove_collapse state w p h]

/-- Witness for C10: a concrete bottom-right resize gesture; the
intermediate move to (70,80) does not affect the final geometry at
(60,70). -/
theorem gesture_depends_only_on_final_position_witness :
    ([⟨70, 80⟩, ⟨60, 70⟩] : List Point).foldl editorMove
        { shapes := [⟨"a", 50, 50, 100, 60, "f", "s", 2⟩]
          selectedShapeId := some "a"
          transform := ⟨0, 0, 1⟩
          resizing := some ⟨"a", .bottomRight, ⟨150, 110⟩,
            ⟨"a", 50, 50, 100, 60, "f", "s", 2⟩⟩
          dragging := none } =
      editorMove
        { shapes := [⟨"a", 50, 50, 100, 60, "f", "s", 2⟩]
          selectedShapeId := some "a"
          transform := ⟨0, 0, 1⟩
          resizing := some ⟨"a", .bottomRight, ⟨150, 110⟩,
            ⟨"a", 50, 50, 100, 60, "f", "s", 2⟩⟩
          dragging := none } ⟨60, 70⟩ :=
  gesture_depends_only_on_final_position _ [⟨70, 80⟩] ⟨60, 70⟩
    (Or.inl ⟨⟨"a", .bottomRight, ⟨150, 110⟩,
      ⟨"a", 50, 50, 100, 60, "f", "s", 2⟩⟩, rfl, rfl⟩)

end Canvas
